import Mathlib

/-!
Shallow embedding of the persistence layer of `src/todo_app.py` (class
`Database`, plus the one view-layer validation slice a claim refers to).

Modelling conventions, chosen to match SQLite semantics:
* `date` (`YYYY-MM-DD`), `due_time` (`HH:MM`) and `completed_date`
  (timestamp) columns are `TEXT`; SQLite compares `TEXT` byte-wise, which
  for these ASCII strings coincides with Lean's lexicographic `String`
  order, so they are embedded as `String` with the Mathlib order.
* `status` and `priority` are `TEXT` columns whose only writers in the
  application store the literals `pending`/`completed` and
  `high`/`medium`/`low` (the priority combobox is read-only, `add_todo`
  and the mark operations write only these), so they are embedded as
  enumerations.
* a table is a list of rows in rowid (= insertion) order; `AUTOINCREMENT`
  ids are modelled by `next_id`.
* `ORDER BY` is modelled by `List.insertionSort` with the comparison
  relation the SQL expresses; SQLite sorts `NULL` before every non-`NULL`
  value in ascending order, which the relations below reproduce.
* `cursor.rowcount > 0` after `UPDATE`/`DELETE ... WHERE id = ?` is the
  number of rows whose `id` matched, compared with 0.
-/

namespace TodoApp

/-- Kernel-reducible decision procedure for `<` on `String` (the default
instance recurses over byte iterators and does not evaluate inside
`decide`); SQLite's byte-wise `TEXT` comparison on the ASCII dates and
times of this schema is exactly this character-list order. -/
instance (priority := 10000) strDecLT (a b : String) : Decidable (a < b) :=
  decidable_of_iff (a.data < b.data) String.lt_iff_toList_lt.symm

/-- Kernel-reducible decision procedure for `≤` on `String`. -/
instance (priority := 10000) strDecLE (a b : String) : Decidable (a ≤ b) :=
  decidable_of_iff (¬ b.data < a.data) (not_congr String.lt_iff_toList_lt).symm

inductive Status where
  | pending
  | completed
deriving Repr, DecidableEq

inductive Priority where
  | high
  | medium
  | low
deriving Repr, DecidableEq

/-- The `CASE priority WHEN 'high' THEN 1 WHEN 'medium' THEN 2 WHEN 'low'
THEN 3 END` expression used by both ordering queries. -/
def prioRank : Priority → Nat
  | .high => 1
  | .medium => 2
  | .low => 3

/-- One row of the `todos` table. -/
structure Todo where
  id : Nat
  user_id : Nat
  date : String
  title : String
  description : String
  status : Status
  due_time : Option String
  completed_date : Option String
  priority : Priority
deriving Repr, DecidableEq

/-- The `todos` table together with the autoincrement counter. -/
structure Database where
  todos : List Todo
  next_id : Nat
deriving Repr, DecidableEq

/-- A freshly created store: empty table, ids start at 1. -/
def emptyDb : Database := { todos := [], next_id := 1 }

/-- `WHERE id = ?` row predicate. -/
def rowMatch (todo_id : Nat) (t : Todo) : Bool := decide (t.id = todo_id)

/-- `cursor.rowcount > 0` for a statement whose WHERE clause is
`id = todo_id`. -/
def rowcountPos (db : Database) (todo_id : Nat) : Bool :=
  decide (0 < db.todos.countP (rowMatch todo_id))

/-- `Database.add_todo`: inserts a new row (status and completed_date take
their column defaults `'pending'` and `NULL`) and returns
`cursor.lastrowid`. -/
def add_todo (db : Database) (user_id : Nat) (date title description : String)
    (due_time : Option String) (priority : Priority) : Nat × Database :=
  let t : Todo :=
    { id := db.next_id, user_id := user_id, date := date, title := title,
      description := description, status := .pending, due_time := due_time,
      completed_date := none, priority := priority }
  (db.next_id, { todos := db.todos ++ [t], next_id := db.next_id + 1 })

/-- The comparison relation of `Database.get_todos_by_date`'s
`ORDER BY CASE priority ... END, id DESC`. -/
def dailyLe (a b : Todo) : Prop :=
  prioRank a.priority < prioRank b.priority ∨
    (prioRank a.priority = prioRank b.priority ∧ b.id ≤ a.id)

instance : DecidableRel dailyLe := fun a b =>
  inferInstanceAs (Decidable (prioRank a.priority < prioRank b.priority ∨
    (prioRank a.priority = prioRank b.priority ∧ b.id ≤ a.id)))

instance : IsTotal Todo dailyLe :=
  ⟨fun a b => by
    unfold dailyLe
    rcases Nat.lt_trichotomy (prioRank a.priority) (prioRank b.priority) with h | h | h
    · exact Or.inl (Or.inl h)
    · rcases Nat.le_total b.id a.id with h2 | h2
      · exact Or.inl (Or.inr ⟨h, h2⟩)
      · exact Or.inr (Or.inr ⟨h.symm, h2⟩)
    · exact Or.inr (Or.inl h)⟩

instance : IsTrans Todo dailyLe :=
  ⟨fun a b c hab hbc => by
    unfold dailyLe at hab hbc ⊢
    rcases hab with h1 | ⟨e1, l1⟩ <;> rcases hbc with h2 | ⟨e2, l2⟩
    · exact Or.inl (Nat.lt_trans h1 h2)
    · exact Or.inl (by omega)
    · exact Or.inl (by omega)
    · exact Or.inr ⟨e1.trans e2, Nat.le_trans l2 l1⟩⟩

/-- `Database.get_todos_by_date`: the rows with this user and exact date,
in the SQL's order (priority rank ascending, id descending). -/
def get_todos_by_date (db : Database) (user_id : Nat) (date : String) : List Todo :=
  List.insertionSort dailyLe
    (db.todos.filter (fun t => decide (t.user_id = user_id ∧ t.date = date)))

/-- Ascending `TEXT` comparison on the nullable `due_time` column: in
SQLite `NULL` sorts before every non-`NULL` value. -/
def dueTimeLe : Option String → Option String → Prop
  | none, _ => True
  | some _, none => False
  | some a, some b => a ≤ b

instance : ∀ a b, Decidable (dueTimeLe a b)
  | none, _ => isTrue trivial
  | some _, none => isFalse id
  | some a, some b => inferInstanceAs (Decidable (a ≤ b))

theorem dueTimeLe_total : ∀ a b, dueTimeLe a b ∨ dueTimeLe b a
  | none, _ => Or.inl trivial
  | some _, none => Or.inr trivial
  | some a, some b => le_total a b

theorem dueTimeLe_trans :
    ∀ {a b c}, dueTimeLe a b → dueTimeLe b c → dueTimeLe a c
  | none, _, _, _, _ => trivial
  | some _, none, _, h1, _ => h1.elim
  | some _, some _, none, _, h2 => h2.elim
  | some _, some _, some _, h1, h2 => le_trans h1 h2

/-- The comparison relation of `Database.get_todos_by_priority`'s
`ORDER BY CASE priority ... END, date ASC, due_time ASC`. -/
def priorityLe (a b : Todo) : Prop :=
  prioRank a.priority < prioRank b.priority ∨
    (prioRank a.priority = prioRank b.priority ∧
      (a.date < b.date ∨ (a.date = b.date ∧ dueTimeLe a.due_time b.due_time)))

instance : DecidableRel priorityLe := fun a b =>
  inferInstanceAs (Decidable (prioRank a.priority < prioRank b.priority ∨
    (prioRank a.priority = prioRank b.priority ∧
      (a.date < b.date ∨ (a.date = b.date ∧ dueTimeLe a.due_time b.due_time)))))

instance : IsTotal Todo priorityLe :=
  ⟨fun a b => by
    unfold priorityLe
    rcases Nat.lt_trichotomy (prioRank a.priority) (prioRank b.priority) with h | h | h
    · exact Or.inl (Or.inl h)
    · rcases lt_trichotomy a.date b.date with hd | hd | hd
      · exact Or.inl (Or.inr ⟨h, Or.inl hd⟩)
      · rcases dueTimeLe_total a.due_time b.due_time with ht | ht
        · exact Or.inl (Or.inr ⟨h, Or.inr ⟨hd, ht⟩⟩)
        · exact Or.inr (Or.inr ⟨h.symm, Or.inr ⟨hd.symm, ht⟩⟩)
      · exact Or.inr (Or.inr ⟨h.symm, Or.inl hd⟩)
    · exact Or.inr (Or.inl h)⟩

instance : IsTrans Todo priorityLe :=
  ⟨fun a b c hab hbc => by
    unfold priorityLe at hab hbc ⊢
    rcases hab with h1 | ⟨e1, r1⟩ <;> rcases hbc with h2 | ⟨e2, r2⟩
    · exact Or.inl (Nat.lt_trans h1 h2)
    · exact Or.inl (by omega)
    · exact Or.inl (by omega)
    · refine Or.inr ⟨e1.trans e2, ?_⟩
      rcases r1 with hd1 | ⟨ed1, ht1⟩ <;> rcases r2 with hd2 | ⟨ed2, ht2⟩
      · exact Or.inl (lt_trans hd1 hd2)
      · exact Or.inl (lt_of_lt_of_le hd1 (le_of_eq ed2))
      · exact Or.inl (lt_of_le_of_lt (le_of_eq ed1) hd2)
      · exact Or.inr ⟨ed1.trans ed2, dueTimeLe_trans ht1 ht2⟩⟩

/-- `Database.get_todos_by_priority`: the user's pending rows across all
dates, in the SQL's order. -/
def get_todos_by_priority (db : Database) (user_id : Nat) : List Todo :=
  List.insertionSort priorityLe
    (db.todos.filter (fun t => decide (t.user_id = user_id ∧ t.status = .pending)))

/-- The row transformation of `Database.update_todo`'s dynamically built
`UPDATE`: title and description are always in the SET list; due_time and
priority only when the arguments are not `None`. -/
def updateRow (title description : String) (due_time : Option String)
    (priority : Option Priority) (t : Todo) : Todo :=
  { t with
    title := title
    description := description
    due_time := match due_time with
      | none => t.due_time
      | some v => some v
    priority := match priority with
      | none => t.priority
      | some v => v }

/-- `Database.update_todo`: applies the SET list to every row whose id
matches and returns `rowcount > 0`. -/
def update_todo (db : Database) (todo_id : Nat) (title description : String)
    (due_time : Option String) (priority : Option Priority) : Bool × Database :=
  (rowcountPos db todo_id,
    { db with
      todos := db.todos.map (fun t =>
        if t.id = todo_id then updateRow title description due_time priority t else t) })

/-- `Database.delete_todo`: removes every row whose id matches and returns
`rowcount > 0`. -/
def delete_todo (db : Database) (todo_id : Nat) : Bool × Database :=
  (rowcountPos db todo_id,
    { db with todos := db.todos.filter (fun t => !rowMatch todo_id t) })

/-- `Database.mark_todo_as_done`: `completed_date` is the current
timestamp string, passed explicitly here. -/
def mark_todo_as_done (db : Database) (completed_date : String)
    (todo_id : Nat) : Bool × Database :=
  (rowcountPos db todo_id,
    { db with
      todos := db.todos.map (fun t =>
        if t.id = todo_id then
          { t with status := .completed, completed_date := some completed_date }
        else t) })

/-- `Database.mark_todo_as_pending`. -/
def mark_todo_as_pending (db : Database) (todo_id : Nat) : Bool × Database :=
  (rowcountPos db todo_id,
    { db with
      todos := db.todos.map (fun t =>
        if t.id = todo_id then
          { t with status := .pending, completed_date := none }
        else t) })

/-- Result record of `Database.get_todo_stats`. -/
structure Stats where
  completed : Nat
  pending : Nat
  overdue : Nat
deriving Repr, DecidableEq

/-- The overdue filter of `Database.get_todo_stats`'s third query,
`date < ? OR (date = ? AND due_time < ? AND due_time IS NOT NULL)`, with
SQL's three-valued logic already collapsed: when `due_time` is `NULL`
the right disjunct is not satisfied (`NULL < x` is `NULL`, and
`NULL AND FALSE` is `FALSE`). -/
def overdueCond (current_date current_time : String) (t : Todo) : Bool :=
  decide (t.status = .pending) &&
    (decide (t.date < current_date) ||
      (decide (t.date = current_date) &&
        (match t.due_time with
          | none => false
          | some dt => decide (dt < current_time))))

/-- `Database.get_todo_stats`: the three `COUNT(*)` queries, with the
current date and time strings passed explicitly. -/
def get_todo_stats (db : Database) (user_id : Nat)
    (current_date current_time : String) : Stats :=
  { completed := db.todos.countP
      (fun t => decide (t.user_id = user_id ∧ t.status = .completed))
    pending := db.todos.countP
      (fun t => decide (t.user_id = user_id ∧ t.status = .pending))
    overdue := db.todos.countP
      (fun t => decide (t.user_id = user_id) && overdueCond current_date current_time t) }

/-- Modelled from the spec: the store-level search query
`Database.search_todos(user_id, keyword)` is missing from the source — a
misplaced display method of the same name (todo_app.py lines 137-177)
stands in its place and the store query it calls does not exist. Per the
spec, search "matches keyword as a case-insensitive substring against
title and/or description". -/
def keywordMatch (keyword : String) (t : Todo) : Bool :=
  decide (keyword.data.map Char.toLower <:+: t.title.data.map Char.toLower) ||
    decide (keyword.data.map Char.toLower <:+: t.description.data.map Char.toLower)

/-- Modelled from the spec: the store-level search returns the user's
matching rows with no ordering guarantee (modelled as table order). -/
def search_todos (db : Database) (user_id : Nat) (keyword : String) : List Todo :=
  db.todos.filter (fun t => decide (t.user_id = user_id) && keywordMatch keyword t)

/-- The caller's re-sort before display (todo_app.py line 158:
`sorted(todos, key=lambda x: x[1], reverse=True)`, x[1] being the date
column): date descending, stable. -/
def dateDescLe (a b : Todo) : Prop := b.date ≤ a.date

instance : DecidableRel dateDescLe := fun a b =>
  inferInstanceAs (Decidable (b.date ≤ a.date))

instance : IsTotal Todo dateDescLe := ⟨fun a b => le_total b.date a.date⟩

instance : IsTrans Todo dateDescLe :=
  ⟨fun _ _ _ hab hbc => le_trans hbc hab⟩

/-- The displayed search result: the caller sorts the store's rows by
date descending before inserting them into the tree. -/
def search_display (db : Database) (user_id : Nat) (keyword : String) : List Todo :=
  List.insertionSort dateDescLe (search_todos db user_id keyword)

/-- One row of the `users` table. -/
structure UserRow where
  id : Nat
  username : String
  password_hash : List Nat
deriving Repr, DecidableEq

/-- `Database.hash_password`, with the 32 random bytes of
`os.urandom(32)` passed explicitly: the stored record is `salt + key`.
The key derivation (`hashlib.pbkdf2_hmac('sha256', password, salt,
100000)`) is abstracted as the parameter `kdf`; bytes are `Nat`s. -/
def hash_password (kdf : String → List Nat → List Nat) (salt : List Nat)
    (password : String) : List Nat :=
  salt ++ kdf password salt

/-- `Database.verify_password`: splits the stored record at byte 32 into
salt and key, re-derives and compares. -/
def verify_password (kdf : String → List Nat → List Nat)
    (stored_password : List Nat) (provided_password : String) : Bool :=
  let salt := stored_password.take 32
  let stored_key := stored_password.drop 32
  decide (kdf provided_password salt = stored_key)

/-- `Database.authenticate_user`: `SELECT id, password_hash FROM users
WHERE username = ?` then `fetchone` is the first matching row. -/
def authenticate_user (kdf : String → List Nat → List Nat)
    (users : List UserRow) (username password : String) : Option Nat :=
  match users.find? (fun u => decide (u.username = username)) with
  | none => none
  | some u => if verify_password kdf u.password_hash password then some u.id else none

/-- Outcome of the view-layer save operation. -/
inductive SaveResult where
  | saved (todo_id : Nat)
  | errTimeFormat
  | errTitleRequired
  | errPastDate
  | errPastTime
deriving Repr, DecidableEq

/-- `TodoApp.save_todo`, add-mode branch (the update-mode branch goes to
`update_todo` instead): the view's validation sequence before it calls
`Database.add_todo`. `valid_time` abstracts
`datetime.strptime(time_str, "%H:%M")` succeeding; the selected date and
the current date/time strings are passed explicitly; the empty-string
due time becomes `None` (`due_time if due_time else None`). -/
def save_todo (valid_time : String → Bool) (db : Database) (user_id : Nat)
    (selected_date current_date current_time : String)
    (title description due_time : String) (priority : Priority) :
    SaveResult × Database :=
  if due_time ≠ "" ∧ valid_time due_time = false then (.errTimeFormat, db)
  else if title = "" then (.errTitleRequired, db)
  else if selected_date < current_date then (.errPastDate, db)
  else if selected_date = current_date ∧ due_time ≠ "" ∧ due_time < current_time then
    (.errPastTime, db)
  else
    let r := add_todo db user_id selected_date title description
      (if due_time = "" then none else some due_time) priority
    (.saved r.1, r.2)

/-- The spec's overdue predicate (spec §3), written from the spec's words
to compare with the code's `overdueCond`: pending, and scheduled strictly
before the current date, or on the current date with a non-null due time
strictly before the current time. -/
def overdueSpec (current_date current_time : String) (t : Todo) : Prop :=
  t.status = .pending ∧
    (t.date < current_date ∨
      (t.date = current_date ∧ ∃ dt, t.due_time = some dt ∧ dt < current_time))

instance (current_date current_time : String) (t : Todo) :
    Decidable (overdueSpec current_date current_time t) := by
  unfold overdueSpec
  rcases t.due_time with _ | dt
  · exact inferInstanceAs (Decidable (_ ∧ (_ ∨ (_ ∧ ∃ dt, (none = some dt) ∧ _))))
  · exact inferInstanceAs (Decidable (_ ∧ (_ ∨ (_ ∧ ∃ x, (some dt = some x) ∧ _))))

/-- C1's asserted tie-break on `due_time`: in the returned sequence, among
rows of equal priority rank and equal date, a null `due_time` is placed
after every non-null one — i.e. a null never precedes a non-null. -/
def dueNullsLastRel (a b : Todo) : Prop :=
  prioRank a.priority = prioRank b.priority → a.date = b.date →
    a.due_time = none → b.due_time = none

instance : DecidableRel dueNullsLastRel := fun a b =>
  inferInstanceAs (Decidable (prioRank a.priority = prioRank b.priority →
    a.date = b.date → a.due_time = none → b.due_time = none))

def dueNullsLast (l : List Todo) : Prop :=
  l.Pairwise dueNullsLastRel

instance (l : List Todo) : Decidable (dueNullsLast l) :=
  inferInstanceAs (Decidable (l.Pairwise dueNullsLastRel))

/-- The store invariant of spec §3: `completed_date` is non-null iff
`status = completed`. -/
def dbInv (db : Database) : Prop :=
  ∀ t ∈ db.todos, (t.completed_date ≠ none ↔ t.status = .completed)

instance (db : Database) : Decidable (dbInv db) :=
  inferInstanceAs (Decidable
    (∀ t ∈ db.todos, (t.completed_date ≠ none ↔ t.status = .completed)))

/-! Helper lemmas shared by the claim theorems. -/

theorem rowcountPos_iff (db : Database) (i : Nat) :
    rowcountPos db i = true ↔ ∃ t ∈ db.todos, t.id = i := by
  unfold rowcountPos
  rw [decide_eq_true_eq, List.countP_pos_iff]
  simp [rowMatch]

theorem rowcountPos_eq_false_iff (db : Database) (i : Nat) :
    rowcountPos db i = false ↔ ∀ t ∈ db.todos, t.id ≠ i := by
  rw [← Bool.not_eq_true, rowcountPos_iff]
  push_neg
  rfl

theorem countP_rowMatch_map (l : List Todo) (f : Todo → Todo)
    (hf : ∀ t, (f t).id = t.id) (i : Nat) :
    (l.map f).countP (rowMatch i) = l.countP (rowMatch i) := by
  rw [List.countP_map]
  exact List.countP_congr (fun t _ => by simp [Function.comp, rowMatch, hf])

/-- The relation C1 actually satisfies on ties: among rows of equal
priority rank and date, a non-null `due_time` never follows a null one
(SQLite puts `NULL` first in ascending order). -/
def dueNullsFirstRel (a b : Todo) : Prop :=
  prioRank a.priority = prioRank b.priority → a.date = b.date →
    b.due_time = none → a.due_time = none

theorem priorityLe_nulls_first {a b : Todo} (h : priorityLe a b) :
    dueNullsFirstRel a b := by
  intro hrank hdate hnone
  rcases h with h | ⟨_, h⟩
  · omega
  · rcases h with hd | ⟨_, ht⟩
    · rw [hdate] at hd
      exact absurd hd (lt_irrefl _)
    · rcases ha : a.due_time with _ | x
      · rfl
      · rw [ha, hnone] at ht
        exact False.elim ht

/-! C5 -/

/-- C5: for every user and date, the daily-view query returns exactly the
todos of that user with that exact date, ordered by priority rank
ascending (high=1, medium=2, low=3) and, among todos of equal priority,
by identifier descending. -/
theorem get_todos_by_date_spec (db : Database) (uid : Nat) (date : String) :
    (get_todos_by_date db uid date).Perm
      (db.todos.filter (fun t => decide (t.user_id = uid ∧ t.date = date))) ∧
    (∀ t, t ∈ get_todos_by_date db uid date ↔
      t ∈ db.todos ∧ t.user_id = uid ∧ t.date = date) ∧
    List.Sorted dailyLe (get_todos_by_date db uid date) := by
  refine ⟨List.perm_insertionSort _ _, fun t => ?_, List.sorted_insertionSort _ _⟩
  simp [get_todos_by_date, List.mem_insertionSort, List.mem_filter,
    decide_eq_true_eq, and_assoc]

/-- The spec §8 example store: "Buy milk" (high) and "Call bank" (low)
added for user 1 on 2024-01-10. -/
def exDb5 : Database :=
  (add_todo (add_todo emptyDb 1 "2024-01-10" "Buy milk" "" none .high).2
    1 "2024-01-10" "Call bank" "" none .low).2

/-- C5 witness: on the spec §8 example store the daily view lists
"Buy milk" (high) before "Call bank" (low). -/
theorem get_todos_by_date_spec_witness :
    (∀ t, t ∈ get_todos_by_date exDb5 1 "2024-01-10" ↔
      t ∈ exDb5.todos ∧ t.user_id = 1 ∧ t.date = "2024-01-10") ∧
    (get_todos_by_date exDb5 1 "2024-01-10").map Todo.title =
      ["Buy milk", "Call bank"] :=
  ⟨(get_todos_by_date_spec exDb5 1 "2024-01-10").2.1, by decide⟩

/-! C1 -/

/-- C1 (amended): for every user, the pending-by-priority query returns
exactly that user's pending todos (never a completed one), ordered by
priority rank ascending, then date ascending, then due_time ascending
with null due_times placed BEFORE every non-null due_time of the same
priority and date (SQLite sorts NULL first in ascending order). -/
theorem get_todos_by_priority_spec (db : Database) (uid : Nat) :
    (get_todos_by_priority db uid).Perm
      (db.todos.filter (fun t => decide (t.user_id = uid ∧ t.status = .pending))) ∧
    (∀ t, t ∈ get_todos_by_priority db uid ↔
      t ∈ db.todos ∧ t.user_id = uid ∧ t.status = .pending) ∧
    (∀ t ∈ get_todos_by_priority db uid, t.status ≠ .completed) ∧
    List.Sorted priorityLe (get_todos_by_priority db uid) ∧
    (get_todos_by_priority db uid).Pairwise dueNullsFirstRel := by
  have hmem : ∀ t, t ∈ get_todos_by_priority db uid ↔
      t ∈ db.todos ∧ t.user_id = uid ∧ t.status = .pending := by
    intro t
    simp [get_todos_by_priority, List.mem_insertionSort, List.mem_filter,
      decide_eq_true_eq, and_assoc]
  refine ⟨List.perm_insertionSort _ _, hmem, ?_, List.sorted_insertionSort _ _,
    List.Pairwise.imp priorityLe_nulls_first (List.sorted_insertionSort _ _)⟩
  intro t ht
  have hp := ((hmem t).mp ht).2.2
  rw [hp]
  simp

/-- Two pending rows of user 1, equal priority and date; id 1 has a NULL
due_time, id 2 has due_time 09:00; table order puts the non-null row
first. -/
def cNullT : Todo :=
  ⟨1, 1, "2024-01-10", "pay rent", "", .pending, none, none, .high⟩

def cTimeT : Todo :=
  ⟨2, 1, "2024-01-10", "send email", "", .pending, some "09:00", none, .high⟩

def cNullDb : Database := ⟨[cTimeT, cNullT], 3⟩

/-- C1 counterexample: on `cNullDb` the query places the NULL due_time
row before the 09:00 row (same user, priority and date), so null
due_times are not placed after every non-null due_time as claimed. -/
theorem get_todos_by_priority_nulls_not_last :
    (get_todos_by_priority cNullDb 1).map Todo.due_time = [none, some "09:00"] ∧
    ¬ dueNullsLast (get_todos_by_priority cNullDb 1) := by decide

/-- C1 witness: the amended ordering theorem instantiated on `cNullDb`. -/
theorem get_todos_by_priority_spec_witness :
    (∀ t, t ∈ get_todos_by_priority cNullDb 1 ↔
      t ∈ cNullDb.todos ∧ t.user_id = 1 ∧ t.status = .pending) ∧
    List.Sorted priorityLe (get_todos_by_priority cNullDb 1) :=
  ⟨(get_todos_by_priority_spec cNullDb 1).2.1,
    (get_todos_by_priority_spec cNullDb 1).2.2.2.1⟩

/-! C2 -/

/-- C2: for every user and keyword, the store search returns exactly that
user's todos whose title or description contains the keyword as a
case-insensitive substring, in no guaranteed order; the displaying
caller re-sorts by date descending. -/
theorem search_todos_spec (db : Database) (uid : Nat) (kw : String) :
    (∀ t, t ∈ search_todos db uid kw ↔
      t ∈ db.todos ∧ t.user_id = uid ∧
        (kw.data.map Char.toLower <:+: t.title.data.map Char.toLower ∨
          kw.data.map Char.toLower <:+: t.description.data.map Char.toLower)) ∧
    (search_display db uid kw).Perm (search_todos db uid kw) ∧
    List.Sorted dateDescLe (search_display db uid kw) := by
  refine ⟨fun t => ?_, List.perm_insertionSort _ _, List.sorted_insertionSort _ _⟩
  simp [search_todos, keywordMatch, List.mem_filter, Bool.and_eq_true,
    Bool.or_eq_true, decide_eq_true_eq, and_assoc]

/-- Store for the C2 witness: a title match with different case, a
description match, and a row of another user that also matches. -/
def exDb2 : Database :=
  ⟨[⟨1, 1, "2024-01-10", "Buy MILK", "", .pending, none, none, .medium⟩,
    ⟨2, 1, "2024-01-12", "Call bank", "about milk money", .completed, none,
      some "2024-01-12 09:00:00", .low⟩,
    ⟨3, 2, "2024-01-11", "milk the cows", "", .pending, none, none, .high⟩], 4⟩

/-- C2 witness: the search theorem instantiated on `exDb2` with keyword
"Milk"; the display order is by date descending. -/
theorem search_todos_spec_witness :
    (∀ t, t ∈ search_todos exDb2 1 "Milk" ↔
      t ∈ exDb2.todos ∧ t.user_id = 1 ∧
        ("Milk".data.map Char.toLower <:+: t.title.data.map Char.toLower ∨
          "Milk".data.map Char.toLower <:+: t.description.data.map Char.toLower)) ∧
    (search_display exDb2 1 "Milk").map Todo.id = [2, 1] :=
  ⟨(search_todos_spec exDb2 1 "Milk").1, by decide⟩

/-! C3 -/

/-- C3 counterexample: `add_todo` called with an empty title does not
fail and does insert a row: starting from the empty store it returns
id 1 and the table then holds one row whose title is the empty string. -/
theorem add_todo_empty_title_inserts :
    ((add_todo emptyDb 1 "2024-01-10" "" "" none .medium).2).todos.map Todo.title
        = [""] ∧
    ((add_todo emptyDb 1 "2024-01-10" "" "" none .medium).2).todos.length = 1 ∧
    (add_todo emptyDb 1 "2024-01-10" "" "" none .medium).1 = 1 := by decide

/-- C3 (amended): the empty-title rejection happens in the view's save
operation, which reports a validation error and inserts nothing; the
store's add itself performs no validation and inserts a row even when
the title is empty. -/
theorem save_todo_empty_title_rejected (vt : String → Bool) (db : Database)
    (uid : Nat) (sd cd ct desc dts : String) (dto : Option String) (pr : Priority) :
    (save_todo vt db uid sd cd ct "" desc dts pr).2 = db ∧
    ((save_todo vt db uid sd cd ct "" desc dts pr).1 = .errTitleRequired ∨
      (save_todo vt db uid sd cd ct "" desc dts pr).1 = .errTimeFormat) ∧
    (∀ i, (save_todo vt db uid sd cd ct "" desc dts pr).1 ≠ .saved i) ∧
    ((add_todo db uid sd "" desc dto pr).2).todos.length = db.todos.length + 1 ∧
    (∃ t ∈ ((add_todo db uid sd "" desc dto pr).2).todos, t.title = "") := by
  by_cases h1 : dts ≠ "" ∧ vt dts = false
  · refine ⟨by simp [save_todo, h1], Or.inr (by simp [save_todo, h1]),
      fun i => by simp [save_todo, h1], by simp [add_todo], ?_⟩
    exact ⟨_, List.mem_append_right _ (List.mem_singleton_self _), rfl⟩
  · refine ⟨by simp [save_todo, h1], Or.inl (by simp [save_todo, h1]),
      fun i => by simp [save_todo, h1], by simp [add_todo], ?_⟩
    exact ⟨_, List.mem_append_right _ (List.mem_singleton_self _), rfl⟩

/-- C3 witness: the amended statement instantiated at concrete inputs. -/
theorem save_todo_empty_title_rejected_witness :
    (save_todo (fun _ => true) emptyDb 1 "2024-01-10" "2024-01-01" "08:00"
        "" "something" "" .medium).2 = emptyDb ∧
    ((save_todo (fun _ => true) emptyDb 1 "2024-01-10" "2024-01-01" "08:00"
        "" "something" "" .medium).1 = .errTitleRequired ∨
      (save_todo (fun _ => true) emptyDb 1 "2024-01-10" "2024-01-01" "08:00"
        "" "something" "" .medium).1 = .errTimeFormat) ∧
    (∀ i, (save_todo (fun _ => true) emptyDb 1 "2024-01-10" "2024-01-01" "08:00"
        "" "something" "" .medium).1 ≠ .saved i) ∧
    ((add_todo emptyDb 1 "2024-01-10" "" "something" none .medium).2).todos.length
        = emptyDb.todos.length + 1 ∧
    (∃ t ∈ ((add_todo emptyDb 1 "2024-01-10" "" "something" none .medium).2).todos,
      t.title = "") :=
  save_todo_empty_title_rejected (fun _ => true) emptyDb 1 "2024-01-10"
    "2024-01-01" "08:00" "something" "" none .medium

/-! C4 -/

/-- C4: the overdue count of `get_todo_stats` counts exactly the user's
todos satisfying the spec's overdue predicate (pending, and dated
strictly before the current date, or dated today with a non-null
due_time strictly before the current time); a pending todo dated in the
past makes the count positive; rows just marked completed never satisfy
the predicate; and a todo dated today is overdue exactly when its
due_time is in the past. -/
theorem get_todo_stats_overdue_spec (db : Database) (uid : Nat) (cd ct : String) :
    (get_todo_stats db uid cd ct).overdue =
      db.todos.countP (fun t => decide (t.user_id = uid ∧ overdueSpec cd ct t)) ∧
    (∀ t ∈ db.todos, t.user_id = uid → t.status = .pending → t.date < cd →
      0 < (get_todo_stats db uid cd ct).overdue) ∧
    (∀ (ts : String) (i : Nat), ∀ t2 ∈ (mark_todo_as_done db ts i).2.todos,
      t2.id = i → ¬ overdueSpec cd ct t2) ∧
    (∀ t : Todo, t.status = .pending → t.date = cd →
      ∀ tt, t.due_time = some tt →
        (ct < tt → ¬ overdueSpec cd ct t) ∧ (tt < ct → overdueSpec cd ct t)) := by
  refine ⟨?_, ?_, ?_, ?_⟩
  · refine List.countP_congr ?_
    intro t _
    rcases h : t.due_time with _ | dt <;>
      simp [overdueCond, overdueSpec, h]
  · intro t htmem huser hpend hdate
    refine List.countP_pos_iff.mpr ⟨t, htmem, ?_⟩
    simp [overdueCond, huser, hpend, hdate]
  · intro ts i t2 ht2 hid
    simp only [mark_todo_as_done, List.mem_map] at ht2
    rcases ht2 with ⟨t0, _, heq⟩
    by_cases h0 : t0.id = i
    · rw [if_pos h0] at heq
      intro hov
      have := hov.1
      rw [← heq] at this
      simp at this
    · rw [if_neg h0] at heq
      rw [← heq] at hid
      exact absurd hid h0
  · intro t hpend hdate tt htt
    constructor
    · rintro hfut ⟨_, hd | ⟨_, dt0, hsome, hlt⟩⟩
      · rw [hdate] at hd
        exact absurd hd (lt_irrefl _)
      · rw [htt] at hsome
        cases Option.some.inj hsome
        exact absurd hlt (not_lt_of_gt hfut)
    · intro hpast
      exact ⟨hpend, Or.inr ⟨hdate, tt, htt, hpast⟩⟩

/-- A pending todo dated the day before 2024-01-10. -/
def yesterT : Todo := ⟨1, 1, "2024-01-09", "y", "", .pending, none, none, .medium⟩

def exDb4 : Database := ⟨[yesterT], 2⟩

/-- Pending todos dated 2024-01-10 with due times one minute after and
one minute before 12:00. -/
def futureT : Todo := ⟨2, 1, "2024-01-10", "f", "", .pending, some "12:01", none, .medium⟩

def pastT : Todo := ⟨3, 1, "2024-01-10", "p", "", .pending, some "11:59", none, .medium⟩

/-- C4 witness: at current moment 2024-01-10 12:00, the yesterday todo
makes the overdue count positive, after marking it completed it is not
overdue, the 12:01 todo is not overdue, the 11:59 todo is. -/
theorem get_todo_stats_overdue_spec_witness :
    0 < (get_todo_stats exDb4 1 "2024-01-10" "12:00").overdue ∧
    (∀ t2 ∈ (mark_todo_as_done exDb4 "2024-01-10 12:00:00" 1).2.todos,
      t2.id = 1 → ¬ overdueSpec "2024-01-10" "12:00" t2) ∧
    ¬ overdueSpec "2024-01-10" "12:00" futureT ∧
    overdueSpec "2024-01-10" "12:00" pastT :=
  ⟨(get_todo_stats_overdue_spec exDb4 1 "2024-01-10" "12:00").2.1 yesterT
      (by decide) (by decide) (by decide) (by decide),
    (get_todo_stats_overdue_spec exDb4 1 "2024-01-10" "12:00").2.2.1
      "2024-01-10 12:00:00" 1,
    ((get_todo_stats_overdue_spec exDb4 1 "2024-01-10" "12:00").2.2.2 futureT
      (by decide) (by decide) "12:01" (by decide)).1 (by decide),
    ((get_todo_stats_overdue_spec exDb4 1 "2024-01-10" "12:00").2.2.2 pastT
      (by decide) (by decide) "11:59" (by decide)).2 (by decide)⟩

/-! Helper lemmas for the mutation claims. -/

theorem rowcountPos_map (db : Database) (f : Todo → Todo)
    (hf : ∀ t, (f t).id = t.id) (i : Nat) :
    rowcountPos { db with todos := db.todos.map f } i = rowcountPos db i := by
  unfold rowcountPos
  rw [countP_rowMatch_map db.todos f hf i]

theorem rowcountPos_mark_done (db : Database) (ts : String) (i j : Nat) :
    rowcountPos (mark_todo_as_done db ts i).2 j = rowcountPos db j :=
  rowcountPos_map db _ (fun t => by by_cases h : t.id = i <;> simp [h]) j

theorem rowcountPos_mark_pending (db : Database) (i j : Nat) :
    rowcountPos (mark_todo_as_pending db i).2 j = rowcountPos db j :=
  rowcountPos_map db _ (fun t => by by_cases h : t.id = i <;> simp [h]) j

theorem mem_mark_done_id {db : Database} {ts : String} {i : Nat} {t2 : Todo}
    (h : t2 ∈ (mark_todo_as_done db ts i).2.todos) (hid : t2.id = i) :
    t2.status = .completed ∧ t2.completed_date = some ts := by
  simp only [mark_todo_as_done, List.mem_map] at h
  rcases h with ⟨t0, _, heq⟩
  by_cases h0 : t0.id = i
  · rw [if_pos h0] at heq
    rw [← heq]
    exact ⟨rfl, rfl⟩
  · rw [if_neg h0] at heq
    rw [← heq] at hid
    exact absurd hid h0

theorem mem_mark_pending_id {db : Database} {i : Nat} {t2 : Todo}
    (h : t2 ∈ (mark_todo_as_pending db i).2.todos) (hid : t2.id = i) :
    t2.status = .pending ∧ t2.completed_date = none := by
  simp only [mark_todo_as_pending, List.mem_map] at h
  rcases h with ⟨t0, _, heq⟩
  by_cases h0 : t0.id = i
  · rw [if_pos h0] at heq
    rw [← heq]
    exact ⟨rfl, rfl⟩
  · rw [if_neg h0] at heq
    rw [← heq] at hid
    exact absurd hid h0

theorem find_username_unique {users : List UserRow} {u : UserRow}
    (hmem : u ∈ users)
    (huniq : users.Pairwise (fun a b => a.username ≠ b.username)) :
    users.find? (fun v => decide (v.username = u.username)) = some u := by
  induction users with
  | nil => cases hmem
  | cons hd tl ih =>
    rcases List.mem_cons.mp hmem with heq | hmem2
    · subst heq
      simp [List.find?]
    · have hcons := List.pairwise_cons.mp huniq
      have hne : hd.username ≠ u.username := hcons.1 u hmem2
      simp only [List.find?, hne, decide_eq_false_iff_not.mpr hne]
      exact ih hmem2 hcons.2

/-! C6 -/

/-- C6: with the key derivation abstracted as `kdf`, authentication of a
registered (username, password) pair returns the user's id; a password
whose derived key differs returns `None`; an unregistered username
returns `None` for any password; and the two failures are observably
identical. -/
theorem authenticate_user_spec (kdf : String → List Nat → List Nat)
    (users : List UserRow) (u : UserRow) (salt : List Nat) (password : String)
    (hmem : u ∈ users)
    (huniq : users.Pairwise (fun a b => a.username ≠ b.username))
    (hsalt : salt.length = 32)
    (hstore : u.password_hash = hash_password kdf salt password) :
    authenticate_user kdf users u.username password = some u.id ∧
    (∀ wrong, kdf wrong salt ≠ kdf password salt →
      authenticate_user kdf users u.username wrong = none) ∧
    (∀ name, (∀ v ∈ users, v.username ≠ name) →
      ∀ p, authenticate_user kdf users name p = none) ∧
    (∀ wrong name p, kdf wrong salt ≠ kdf password salt →
      (∀ v ∈ users, v.username ≠ name) →
      authenticate_user kdf users u.username wrong =
        authenticate_user kdf users name p) := by
  have hfind := find_username_unique hmem huniq
  have htake : u.password_hash.take 32 = salt := by
    rw [hstore]
    exact List.take_left' hsalt
  have hdrop : u.password_hash.drop 32 = kdf password salt := by
    rw [hstore]
    exact List.drop_left' hsalt
  have hverify : ∀ p, verify_password kdf u.password_hash p =
      decide (kdf p salt = kdf password salt) := by
    intro p
    show decide (kdf p (u.password_hash.take 32) = u.password_hash.drop 32) = _
    rw [htake, hdrop]
  have hnone : ∀ name, (∀ v ∈ users, v.username ≠ name) →
      ∀ p, authenticate_user kdf users name p = none := by
    intro name hno p
    have hfnone : users.find? (fun v => decide (v.username = name)) = none :=
      List.find?_eq_none.mpr (fun v hv => by simp [hno v hv])
    unfold authenticate_user
    rw [hfnone]
  have hwrong : ∀ wrong, kdf wrong salt ≠ kdf password salt →
      authenticate_user kdf users u.username wrong = none := by
    intro wrong hne
    unfold authenticate_user
    rw [hfind]
    show (if verify_password kdf u.password_hash wrong = true
        then some u.id else none) = none
    rw [hverify wrong, decide_eq_false hne]
    rfl
  refine ⟨?_, hwrong, hnone, ?_⟩
  · unfold authenticate_user
    rw [hfind]
    show (if verify_password kdf u.password_hash password = true
        then some u.id else none) = some u.id
    rw [hverify password, decide_eq_true rfl]
    rfl
  · intro wrong name p hne hno
    rw [hwrong wrong hne, hnone name hno p]

/-- Concrete key derivation, salt and user row for the C6 witness. -/
def exKdf : String → List Nat → List Nat := fun p _ => p.data.map Char.toNat

def exSalt : List Nat := List.replicate 32 0

def exUser : UserRow := ⟨1, "alice", hash_password exKdf exSalt "secret"⟩

/-- C6 witness: alice/secret authenticates to id 1, a wrong password and
an unknown username both yield `none`. -/
theorem authenticate_user_spec_witness :
    authenticate_user exKdf [exUser] "alice" "secret" = some 1 ∧
    authenticate_user exKdf [exUser] "alice" "wrong" = none ∧
    authenticate_user exKdf [exUser] "bob" "secret" = none :=
  ⟨(authenticate_user_spec exKdf [exUser] exUser exSalt "secret"
      (by simp) (by simp) (by decide) rfl).1,
    (authenticate_user_spec exKdf [exUser] exUser exSalt "secret"
      (by simp) (by simp) (by decide) rfl).2.1 "wrong" (by decide),
    (authenticate_user_spec exKdf [exUser] exUser exSalt "secret"
      (by simp) (by simp) (by decide) rfl).2.2.1 "bob" (by decide) "secret"⟩

/-! C7 -/

/-- C7: update changes only title, description and — when supplied —
due_time and priority; it never alters id, owner, date, status or
completed_date; it returns true iff a row matched; and on a missing id
it returns false and leaves the store unchanged. -/
theorem update_todo_spec (db : Database) (i : Nat) (title desc : String)
    (dt : Option String) (pr : Option Priority) :
    ((update_todo db i title desc dt pr).1 = true ↔ ∃ t ∈ db.todos, t.id = i) ∧
    ((update_todo db i title desc dt pr).2).next_id = db.next_id ∧
    ((update_todo db i title desc dt pr).2).todos.length = db.todos.length ∧
    (∀ t ∈ db.todos, t.id ≠ i → t ∈ ((update_todo db i title desc dt pr).2).todos) ∧
    (∀ t2 ∈ ((update_todo db i title desc dt pr).2).todos, ∃ t ∈ db.todos,
      t2.id = t.id ∧ t2.user_id = t.user_id ∧ t2.date = t.date ∧
      t2.status = t.status ∧ t2.completed_date = t.completed_date ∧
      (t.id ≠ i → t2 = t) ∧
      (t.id = i → t2.title = title ∧ t2.description = desc ∧
        t2.due_time = (match dt with | none => t.due_time | some v => some v) ∧
        t2.priority = (match pr with | none => t.priority | some v => v))) ∧
    ((∀ t ∈ db.todos, t.id ≠ i) →
      (update_todo db i title desc dt pr).1 = false ∧
      (update_todo db i title desc dt pr).2 = db) := by
  refine ⟨rowcountPos_iff db i, rfl, List.length_map _ _, ?_, ?_, ?_⟩
  · intro t ht hne
    have hmm := List.mem_map_of_mem
      (fun t => if t.id = i then updateRow title desc dt pr t else t) ht
    simp only [hne, if_false, ite_false] at hmm
    exact hmm
  · intro t2 ht2
    simp only [update_todo, List.mem_map] at ht2
    rcases ht2 with ⟨t, ht, rfl⟩
    by_cases h : t.id = i
    · rw [if_pos h]
      exact ⟨t, ht, rfl, rfl, rfl, rfl, rfl, fun hne => absurd h hne,
        fun _ => ⟨rfl, rfl, rfl, rfl⟩⟩
    · rw [if_neg h]
      exact ⟨t, ht, rfl, rfl, rfl, rfl, rfl, fun _ => rfl, fun heq => absurd heq h⟩
  · intro hno
    constructor
    · exact (rowcountPos_eq_false_iff db i).mpr hno
    · show { db with todos := _ } = db
      have hmap : db.todos.map
          (fun t => if t.id = i then updateRow title desc dt pr t else t) = db.todos := by
        have hcongr := List.map_congr_left
          (f := fun t => if t.id = i then updateRow title desc dt pr t else t)
          (g := fun t => t) (l := db.todos) (fun t ht => if_neg (hno t ht))
        rw [hcongr]
        exact List.map_id' db.todos
      rw [hmap]

/-- C7 witness: the update theorem applied to a store holding rows with
ids 1 and 2, updating id 1 with a new title and priority but no due
time. -/
theorem update_todo_spec_witness :
    ((update_todo exDb5 1 "Buy oat milk" "from the store" none (some .low)).1 = true
      ↔ ∃ t ∈ exDb5.todos, t.id = 1) ∧
    ((update_todo exDb5 1 "Buy oat milk" "from the store" none (some .low)).2).todos.length
      = exDb5.todos.length :=
  ⟨(update_todo_spec exDb5 1 "Buy oat milk" "from the store" none (some .low)).1,
    (update_todo_spec exDb5 1 "Buy oat milk" "from the store" none (some .low)).2.2.1⟩

/-! C8 -/

/-- C8: marking an existing todo completed and then pending leaves it
pending with a null completed_date, both calls returning true; marking
completed twice returns true both times and re-stamps completed_date
with the second timestamp; and either operation on a missing identifier
returns false. -/
theorem mark_done_pending_spec :
    (∀ (db : Database) (t : Todo) (i : Nat) (ts1 ts2 : String),
      t ∈ db.todos → t.id = i →
      (mark_todo_as_done db ts1 i).1 = true ∧
      (mark_todo_as_pending (mark_todo_as_done db ts1 i).2 i).1 = true ∧
      (mark_todo_as_done (mark_todo_as_done db ts1 i).2 ts2 i).1 = true ∧
      (∀ t2 ∈ (mark_todo_as_pending (mark_todo_as_done db ts1 i).2 i).2.todos,
        t2.id = i → t2.status = .pending ∧ t2.completed_date = none) ∧
      (∃ t2 ∈ (mark_todo_as_pending (mark_todo_as_done db ts1 i).2 i).2.todos,
        t2.id = i) ∧
      (∀ t2 ∈ (mark_todo_as_done (mark_todo_as_done db ts1 i).2 ts2 i).2.todos,
        t2.id = i → t2.status = .completed ∧ t2.completed_date = some ts2) ∧
      (∃ t2 ∈ (mark_todo_as_done (mark_todo_as_done db ts1 i).2 ts2 i).2.todos,
        t2.id = i)) ∧
    (∀ (db : Database) (i : Nat) (ts : String), (∀ t ∈ db.todos, t.id ≠ i) →
      (mark_todo_as_done db ts i).1 = false ∧
      (mark_todo_as_pending db i).1 = false) := by
  constructor
  · intro db t i ts1 ts2 hmem hid
    have hpos : rowcountPos db i = true := (rowcountPos_iff db i).mpr ⟨t, hmem, hid⟩
    have hpos2 : rowcountPos (mark_todo_as_done db ts1 i).2 i = true := by
      rw [rowcountPos_mark_done]
      exact hpos
    have hpos3 :
        rowcountPos (mark_todo_as_pending (mark_todo_as_done db ts1 i).2 i).2 i = true := by
      rw [rowcountPos_mark_pending, rowcountPos_mark_done]
      exact hpos
    have hpos4 :
        rowcountPos (mark_todo_as_done (mark_todo_as_done db ts1 i).2 ts2 i).2 i = true := by
      rw [rowcountPos_mark_done, rowcountPos_mark_done]
      exact hpos
    refine ⟨hpos, hpos2, hpos2, ?_, ?_, ?_, ?_⟩
    · intro t2 ht2 hid2
      exact mem_mark_pending_id ht2 hid2
    · rcases (rowcountPos_iff _ i).mp hpos3 with ⟨t2, ht2, hid2⟩
      exact ⟨t2, ht2, hid2⟩
    · intro t2 ht2 hid2
      exact mem_mark_done_id ht2 hid2
    · rcases (rowcountPos_iff _ i).mp hpos4 with ⟨t2, ht2, hid2⟩
      exact ⟨t2, ht2, hid2⟩
  · intro db i ts hno
    exact ⟨(rowcountPos_eq_false_iff db i).mpr hno,
      (rowcountPos_eq_false_iff db i).mpr hno⟩

/-- C8 witness: the mark theorem instantiated on the spec example store
(id 1 exists) and on the missing id 99. -/
theorem mark_done_pending_spec_witness :
    ((mark_todo_as_done exDb5 "2024-01-10 09:00:00" 1).1 = true ∧
      (mark_todo_as_pending (mark_todo_as_done exDb5 "2024-01-10 09:00:00" 1).2 1).1 = true) ∧
    ((mark_todo_as_done exDb5 "2024-01-10 09:00:00" 99).1 = false ∧
      (mark_todo_as_pending exDb5 99).1 = false) :=
  ⟨⟨(mark_done_pending_spec.1 exDb5 ⟨1, 1, "2024-01-10", "Buy milk", "", .pending,
        none, none, .high⟩ 1 "2024-01-10 09:00:00" "2024-01-10 10:00:00"
        (by decide) (by decide)).1,
      (mark_done_pending_spec.1 exDb5 ⟨1, 1, "2024-01-10", "Buy milk", "", .pending,
        none, none, .high⟩ 1 "2024-01-10 09:00:00" "2024-01-10 10:00:00"
        (by decide) (by decide)).2.1⟩,
    mark_done_pending_spec.2 exDb5 99 "2024-01-10 09:00:00" (by decide)⟩

/-! C9 -/

/-- C9: the invariant "completed_date is non-null iff status = completed"
holds in the initial store and is preserved by add, update,
mark-completed, mark-pending and delete. -/
theorem dbInv_preserved :
    dbInv emptyDb ∧
    (∀ (db : Database) (uid : Nat) (date title desc : String)
      (dt : Option String) (pr : Priority), dbInv db →
      dbInv (add_todo db uid date title desc dt pr).2) ∧
    (∀ (db : Database) (i : Nat) (title desc : String)
      (dt : Option String) (pr : Option Priority), dbInv db →
      dbInv (update_todo db i title desc dt pr).2) ∧
    (∀ (db : Database) (ts : String) (i : Nat), dbInv db →
      dbInv (mark_todo_as_done db ts i).2) ∧
    (∀ (db : Database) (i : Nat), dbInv db →
      dbInv (mark_todo_as_pending db i).2) ∧
    (∀ (db : Database) (i : Nat), dbInv db →
      dbInv (delete_todo db i).2) := by
  refine ⟨?_, ?_, ?_, ?_, ?_, ?_⟩
  · intro t ht
    cases ht
  · intro db uid date title desc dt pr hinv t ht
    rcases List.mem_append.mp ht with h | h
    · exact hinv t h
    · rcases List.mem_singleton.mp h with rfl
      simp
  · intro db i title desc dt pr hinv t2 ht2
    simp only [update_todo, List.mem_map] at ht2
    rcases ht2 with ⟨t, ht, rfl⟩
    by_cases h : t.id = i
    · rw [if_pos h]
      exact hinv t ht
    · rw [if_neg h]
      exact hinv t ht
  · intro db ts i hinv t2 ht2
    simp only [mark_todo_as_done, List.mem_map] at ht2
    rcases ht2 with ⟨t, ht, rfl⟩
    by_cases h : t.id = i
    · rw [if_pos h]
      simp
    · rw [if_neg h]
      exact hinv t ht
  · intro db i hinv t2 ht2
    simp only [mark_todo_as_pending, List.mem_map] at ht2
    rcases ht2 with ⟨t, ht, rfl⟩
    by_cases h : t.id = i
    · rw [if_pos h]
      simp
    · rw [if_neg h]
      exact hinv t ht
  · intro db i hinv t2 ht2
    exact hinv t2 (List.mem_filter.mp ht2).1

/-- C9 witness: the invariant holds on the example store and is kept by
a mark-completed followed by a mark-pending. -/
theorem dbInv_preserved_witness :
    dbInv exDb5 ∧
    dbInv (mark_todo_as_done exDb5 "2024-01-10 09:00:00" 1).2 ∧
    dbInv (mark_todo_as_pending (mark_todo_as_done exDb5 "2024-01-10 09:00:00" 1).2 1).2 :=
  ⟨by decide,
    dbInv_preserved.2.2.2.1 exDb5 "2024-01-10 09:00:00" 1 (by decide),
    dbInv_preserved.2.2.2.2.1 (mark_todo_as_done exDb5 "2024-01-10 09:00:00" 1).2 1
      (dbInv_preserved.2.2.2.1 exDb5 "2024-01-10 09:00:00" 1 (by decide))⟩

/-! C10 -/

/-- C10: update, delete, mark-completed and mark-pending take only a todo
identifier and check no ownership: for a todo of any user, each
operation on its identifier returns true and performs its effect. -/
theorem no_ownership_check (db : Database) (t : Todo) (i : Nat)
    (title desc : String) (dt : Option String) (pr : Option Priority) (ts : String)
    (hmem : t ∈ db.todos) (hid : t.id = i) :
    (update_todo db i title desc dt pr).1 = true ∧
    (delete_todo db i).1 = true ∧
    (mark_todo_as_done db ts i).1 = true ∧
    (mark_todo_as_pending db i).1 = true ∧
    (∀ t2 ∈ (delete_todo db i).2.todos, t2.id ≠ i) ∧
    (∃ t2 ∈ (mark_todo_as_done db ts i).2.todos,
      t2.id = i ∧ t2.status = .completed ∧ t2.completed_date = some ts) ∧
    (∃ t2 ∈ (mark_todo_as_pending db i).2.todos,
      t2.id = i ∧ t2.status = .pending ∧ t2.completed_date = none) ∧
    (∃ t2 ∈ (update_todo db i title desc dt pr).2.todos,
      t2.id = i ∧ t2.title = title ∧ t2.description = desc) := by
  have hpos : rowcountPos db i = true := (rowcountPos_iff db i).mpr ⟨t, hmem, hid⟩
  refine ⟨hpos, hpos, hpos, hpos, ?_, ?_, ?_, ?_⟩
  · intro t2 ht2
    have hm := (List.mem_filter.mp ht2).2
    simpa [rowMatch] using hm
  · refine ⟨_, List.mem_map_of_mem _ hmem, ?_⟩
    simp [hid]
  · refine ⟨_, List.mem_map_of_mem _ hmem, ?_⟩
    simp [hid]
  · refine ⟨_, List.mem_map_of_mem _ hmem, ?_⟩
    simp [hid, updateRow]

/-- A todo owned by user 42. -/
def otherUserT : Todo := ⟨5, 42, "2024-01-10", "theirs", "", .pending, none, none, .low⟩

def exDb10 : Database := ⟨[otherUserT], 6⟩

/-- C10 witness: all four mutations succeed on user 42's todo with no
ownership information supplied. -/
theorem no_ownership_check_witness :
    (update_todo exDb10 5 "x" "y" none none).1 = true ∧
    (delete_todo exDb10 5).1 = true ∧
    (mark_todo_as_done exDb10 "2024-01-11 08:00:00" 5).1 = true ∧
    (mark_todo_as_pending exDb10 5).1 = true :=
  ⟨(no_ownership_check exDb10 otherUserT 5 "x" "y" none none "2024-01-11 08:00:00"
      (by decide) (by decide)).1,
    (no_ownership_check exDb10 otherUserT 5 "x" "y" none none "2024-01-11 08:00:00"
      (by decide) (by decide)).2.1,
    (no_ownership_check exDb10 otherUserT 5 "x" "y" none none "2024-01-11 08:00:00"
      (by decide) (by decide)).2.2.1,
    (no_ownership_check exDb10 otherUserT 5 "x" "y" none none "2024-01-11 08:00:00"
      (by decide) (by decide)).2.2.2.1⟩

end TodoApp
